import Mathlib

/-!
Verification of the layout and scaling engine of `react_styled_charts`
(`src/components/Bars.tsx`).

Modelling conventions:

* JavaScript numbers are modelled by `JSVal`: exact rationals extended with
  `nan`, `posInf` and `negInf`.  Rounding of IEEE doubles is abstracted away
  (the arithmetic is exact), but the special values produced by division by
  zero and by `Math.max` on an empty array are modelled faithfully, because
  the edge cases of the component (empty slice, all-zero values) hinge on
  them.
* Configuration fields and data values are plain rationals (`ℚ`): the
  component's props are ordinary finite numbers.
* `Array.prototype.filter`/`map` with an index argument are modelled by
  `filterIdx` / `mapWithIndex`.
* Only the quantities the specification talks about are modelled: window
  selection, scale, effective spacing, effective padding, svg extent, per-bar
  rectangle geometry, per-bar animation timing, and the hover tooltip.
  Purely cosmetic outputs (fill colours, corner radii, axis lines, tick
  marks, label text elements) are not part of the model.
* The measured label extents (`getBBox` results held in component state) and
  the `hasMounted` flag are inputs of the model (`BarsState`).
-/

namespace ReactStyledCharts

/-- A JavaScript number: an exact rational, or one of the IEEE special
values that the component can actually produce (`NaN`, `±Infinity`). -/
inductive JSVal : Type where
  | nan : JSVal
  | posInf : JSVal
  | negInf : JSVal
  | num : ℚ → JSVal
deriving DecidableEq, Repr

namespace JSVal

/-- JavaScript addition. -/
def jadd : JSVal → JSVal → JSVal
  | nan, _ => nan
  | _, nan => nan
  | posInf, negInf => nan
  | negInf, posInf => nan
  | posInf, _ => posInf
  | _, posInf => posInf
  | negInf, _ => negInf
  | _, negInf => negInf
  | num a, num b => num (a + b)

/-- JavaScript unary minus. -/
def jneg : JSVal → JSVal
  | nan => nan
  | posInf => negInf
  | negInf => posInf
  | num a => num (-a)

/-- JavaScript subtraction (`a - b = a + (-b)`, including `∞ - ∞ = NaN`). -/
def jsub (a b : JSVal) : JSVal := jadd a (jneg b)

/-- JavaScript multiplication. -/
def jmul : JSVal → JSVal → JSVal
  | nan, _ => nan
  | _, nan => nan
  | posInf, posInf => posInf
  | posInf, negInf => negInf
  | negInf, posInf => negInf
  | negInf, negInf => posInf
  | posInf, num b => if b = 0 then nan else if 0 < b then posInf else negInf
  | num a, posInf => if a = 0 then nan else if 0 < a then posInf else negInf
  | negInf, num b => if b = 0 then nan else if 0 < b then negInf else posInf
  | num a, negInf => if a = 0 then nan else if 0 < a then negInf else posInf
  | num a, num b => num (a * b)

/-- JavaScript division (zero denominators give `NaN` or signed infinity,
matching `0/0 = NaN` and `x/0 = ±Infinity`). -/
def jdiv : JSVal → JSVal → JSVal
  | nan, _ => nan
  | _, nan => nan
  | posInf, posInf => nan
  | posInf, negInf => nan
  | negInf, posInf => nan
  | negInf, negInf => nan
  | posInf, num b => if 0 ≤ b then posInf else negInf
  | negInf, num b => if 0 ≤ b then negInf else posInf
  | num _, posInf => num 0
  | num _, negInf => num 0
  | num a, num b =>
      if b = 0 then (if a = 0 then nan else if 0 < a then posInf else negInf)
      else num (a / b)

/-- JavaScript `<` (any comparison involving `NaN` is `false`). -/
def jlt : JSVal → JSVal → Bool
  | nan, _ => false
  | _, nan => false
  | negInf, negInf => false
  | negInf, _ => true
  | _, negInf => false
  | posInf, _ => false
  | num _, posInf => true
  | num a, num b => decide (a < b)

/-- JavaScript `>`. -/
def jgt (a b : JSVal) : Bool := jlt b a

/-- The binary step of `Math.max`: `NaN` is absorbing, `-Infinity` is the
identity. -/
def jmax2 : JSVal → JSVal → JSVal
  | nan, _ => nan
  | _, nan => nan
  | posInf, _ => posInf
  | _, posInf => posInf
  | negInf, b => b
  | a, negInf => a
  | num a, num b => num (max a b)

/-- `Math.max(...l)`: `-Infinity` on the empty list, otherwise the maximum
(`NaN`-absorbing). -/
def jsMathMax (l : List JSVal) : JSVal := l.foldl jmax2 negInf

end JSVal

open JSVal

/-- One chart datum: `{ label, value }`.  `value` is a finite number (the
spec's only unrecoverable error is a malformed datum, which is out of
scope here). -/
structure DataPoint where
  label : String
  value : ℚ
deriving DecidableEq, Repr

/-- The props of the `Bars` component that the modelled outputs depend on
(visual-only props such as colours are omitted). -/
structure BarsProps where
  data : List DataPoint
  width : ℚ
  height : ℚ
  strokeWidthAxe : ℚ
  numberShownColumns : ℚ
  initialValue : ℚ
  xAxisLabelShow : Bool
  yAxisLabelShow : Bool
  paddingXaxis : ℚ
  paddingYaxis : ℚ
  showLabelsTickX : Bool
  barsSpacing : ℚ
  animated : Bool
deriving DecidableEq, Repr

/-- The component-local state feeding a layout pass: measured label extents
(`getBBox` results, zero until measurement) plus the entrance flag and the
hovered index. -/
structure BarsState where
  yLabelWidth : ℚ
  xLabelWidth : ℚ
  labelsTickXHeight : ℚ
  hasMounted : Bool
  hoveredIndex : Option ℕ
deriving DecidableEq, Repr

/-- Geometry and animation timing of one rendered bar
(`motion.rect` and its `variants`). -/
structure BarGeom where
  x : JSVal
  restY : JSVal
  restHeight : JSVal
  yDelay : JSVal
  yDuration : JSVal
  heightDelay : JSVal
  heightDuration : JSVal
  fillDelay : JSVal
  fillDuration : JSVal
  initialY : JSVal
  initialHeight : JSVal
deriving DecidableEq, Repr

/-- The hover tooltip: outer rectangle plus its text. -/
structure Tooltip where
  x : JSVal
  y : JSVal
  width : JSVal
  height : JSVal
  text : String
deriving DecidableEq, Repr

/-- The layout produced by one render pass. -/
structure BarsLayout where
  svgWidth : JSVal
  svgHeight : JSVal
  bars : List BarGeom
  tooltip : Option Tooltip
deriving DecidableEq, Repr

/-- `Array.prototype.filter` with the element index as the predicate's
argument (`data.filter((_, i) => p i)`), starting the count at `s`. -/
def filterIdx (p : ℕ → Bool) : ℕ → List α → List α
  | _, [] => []
  | i, a :: l => if p i then a :: filterIdx p (i + 1) l else filterIdx p (i + 1) l

/-- `Array.prototype.map` with the element index (`l.map((d, i) => f i d)`),
starting the count at `s`. -/
def mapWithIndex (f : ℕ → α → β) : ℕ → List α → List β
  | _, [] => []
  | i, a :: l => f i a :: mapWithIndex f (i + 1) l

/-- Line 104: `width = (width < 100) ? 100 : width`. -/
def normWidth (w : ℚ) : ℚ := if w < 100 then 100 else w

/-- Line 105: `height = (height < 100) ? 100 : height`. -/
def normHeight (h : ℚ) : ℚ := if h < 100 then 100 else h

/-- Line 107: `strokeWidthAxe = (strokeWidthAxe > 10) ? 10 : strokeWidthAxe`. -/
def normStroke (s : ℚ) : ℚ := if s > 10 then 10 else s

/-- Line 106, the Window Selector:
`data.filter((_, i) => i < numberShownColumns + initialValue && i >= initialValue)`. -/
def windowFilter (data : List α) (initialValue numberShownColumns : ℚ) : List α :=
  filterIdx
    (fun i => decide ((i : ℚ) < numberShownColumns + initialValue)
      && decide ((i : ℚ) ≥ initialValue)) 0 data

/-- The second, positional truncation `data.filter((_, i) => i < numberShownColumns)`
applied to the already-windowed slice (lines 109, 118, 207, 219). -/
def secondFilter (data : List α) (numberShownColumns : ℚ) : List α :=
  filterIdx (fun i => decide ((i : ℚ) < numberShownColumns)) 0 data

/-- Line 109: `Math.max(...data.filter((_, i) => i < numberShownColumns).map(d => d.value))`. -/
def maxValue (slice : List DataPoint) (numberShownColumns : ℚ) : JSVal :=
  jsMathMax ((secondFilter slice numberShownColumns).map (fun d => JSVal.num d.value))

/-- Line 110: `width / Math.min(numberShownColumns, data.length)` (with `data`
already windowed, so `data.length` is the slice length). -/
def barWidth (width numberShownColumns : ℚ) (sliceLen : ℕ) : JSVal :=
  jdiv (JSVal.num width) (JSVal.num (min numberShownColumns (sliceLen : ℚ)))

/-- Line 111, the spacing clamp:
`barsSpacing = (barsSpacing < 0) ? 0 : (barsSpacing > barWidth ? barWidth - 2 : barsSpacing)`. -/
def effectiveSpacing (barsSpacing : ℚ) (bw : JSVal) : JSVal :=
  if barsSpacing < 0 then JSVal.num 0
  else if jgt (JSVal.num barsSpacing) bw then jsub bw (JSVal.num 2)
  else JSVal.num barsSpacing

/-- Line 113: `effectivePaddingY = (yAxisLabelShow ? yLabelWidth : 0)`. -/
def effectivePaddingY (yAxisLabelShow : Bool) (yLabelWidth : ℚ) : ℚ :=
  if yAxisLabelShow then yLabelWidth else 0

/-- Line 114:
`effectivePaddingX = (xAxisLabelShow ? xLabelWidth : 0) + (showLabelsTickX ? labelsTickXHeight : 0)`. -/
def effectivePaddingX (xAxisLabelShow : Bool) (xLabelWidth : ℚ)
    (showLabelsTickX : Bool) (labelsTickXHeight : ℚ) : ℚ :=
  (if xAxisLabelShow then xLabelWidth else 0)
    + (if showLabelsTickX then labelsTickXHeight else 0)

/-- The additive constant in the svg width.  In `src/components/Bars.tsx`
(line 117) there is no extra margin term, so the constant is `0` (an earlier
draft shown in the README adds `50` instead). -/
def constantMargin : ℚ := 0

/-- The visible slice of a render pass (line 106 applied to the props). -/
def visibleSlice (p : BarsProps) : List DataPoint :=
  windowFilter p.data p.initialValue p.numberShownColumns

/-- The list the bars are actually drawn from: the visible slice filtered a
second time by position (`data.filter((_, i) => i < numberShownColumns)`,
line 118). -/
def shownBars (p : BarsProps) : List DataPoint :=
  secondFilter (visibleSlice p) p.numberShownColumns

/-- The bar-width scale of a render pass (line 110). -/
def barWidthOf (p : BarsProps) : JSVal :=
  barWidth (normWidth p.width) p.numberShownColumns (visibleSlice p).length

/-- The clamped inter-bar spacing of a render pass (line 111). -/
def spacingOf (p : BarsProps) : JSVal :=
  effectiveSpacing p.barsSpacing (barWidthOf p)

/-- The normalising maximum of a render pass (line 109). -/
def maxValueOf (p : BarsProps) : JSVal :=
  maxValue (visibleSlice p) p.numberShownColumns

/-- One bar of the render loop (lines 118-161): rectangle `x`, the `rest`
variant's `y`/`height`, and the transition timings of the `rest` variant. -/
def mkBar (height paddingYaxis strokeWidthAxe : ℚ) (maxV bw sp : JSVal)
    (effPadY paddingXaxis : ℚ) (sliceLen : ℕ) (hasMounted : Bool)
    (i : ℕ) (d : DataPoint) : BarGeom :=
  let barHeight := jmul (jdiv (JSVal.num d.value) maxV) (JSVal.num height)
  let barY := jsub (jadd (jsub (JSVal.num height) barHeight) (JSVal.num paddingYaxis))
    (jdiv (JSVal.num strokeWidthAxe) (JSVal.num 2))
  { x := jadd (jadd (jadd (jadd (jmul (JSVal.num (i : ℚ)) bw) (JSVal.num effPadY))
      (JSVal.num paddingXaxis)) (JSVal.num strokeWidthAxe)) sp
    restY := barY
    restHeight := barHeight
    yDelay := jmul (JSVal.num (i : ℚ)) (JSVal.num (1 / 10))
    yDuration := jmul (JSVal.num 1) (jdiv (JSVal.num d.value) maxV)
    heightDelay := jmul (JSVal.num (i : ℚ)) (JSVal.num (1 / 10))
    heightDuration := jmul (JSVal.num 1) (jdiv (JSVal.num d.value) maxV)
    fillDelay := if hasMounted then JSVal.num 0
      else jadd (jmul (JSVal.num (1 / 20)) (JSVal.num (i : ℚ)))
        (jmul (JSVal.num (sliceLen : ℚ)) (JSVal.num (3 / 40)))
    fillDuration := JSVal.num (if hasMounted then 1 / 4 else 1)
    initialY := jadd (JSVal.num height) (JSVal.num paddingYaxis)
    initialHeight := JSVal.num 0 }

/-- The rendered bars of a pass (lines 118-162). -/
def barsOf (p : BarsProps) (st : BarsState) : List BarGeom :=
  mapWithIndex
    (mkBar (normHeight p.height) p.paddingYaxis (normStroke p.strokeWidthAxe)
      (maxValueOf p) (barWidthOf p) (spacingOf p)
      (effectivePaddingY p.yAxisLabelShow st.yLabelWidth) p.paddingXaxis
      (visibleSlice p).length st.hasMounted)
    0 (shownBars p)

/-- The hover tooltip (lines 233-278): rendered only when `hoveredIndex` is
non-null and `hasMounted` is set.  (When the hovered index is out of range
the real code would fault on `data[hoveredIndex].value`; the component only
ever stores in-range indices, and the model returns `none` there.) -/
def tooltipOf (p : BarsProps) (st : BarsState) : Option Tooltip :=
  match st.hoveredIndex, st.hasMounted with
  | some idx, true =>
    match (visibleSlice p)[idx]? with
    | some d =>
      let bw := barWidth (normWidth p.width) p.numberShownColumns (visibleSlice p).length
      let barHeight := jmul (jdiv (JSVal.num d.value) (maxValueOf p))
        (JSVal.num (normHeight p.height))
      let barX := jadd (jadd (jadd (jadd (jmul (JSVal.num (idx : ℚ)) bw)
        (JSVal.num (effectivePaddingY p.yAxisLabelShow st.yLabelWidth)))
        (JSVal.num p.paddingXaxis)) (JSVal.num (normStroke p.strokeWidthAxe))) (spacingOf p)
      let barY := jsub (jadd (jsub (JSVal.num (normHeight p.height)) barHeight)
        (JSVal.num p.paddingYaxis))
        (jdiv (JSVal.num (normStroke p.strokeWidthAxe)) (JSVal.num 2))
      let tooltipX := jsub (jadd barX (jdiv (jsub bw (spacingOf p)) (JSVal.num 2)))
        (jdiv (JSVal.num 80) (JSVal.num 2))
      let tooltipY := jsub (jsub barY (JSVal.num 30)) (JSVal.num 10)
      some { x := tooltipX, y := tooltipY,
             width := JSVal.num 80, height := JSVal.num 30,
             text := d.label ++ ": " ++ toString d.value }
    | none => none
  | _, _ => none

/-- One full layout pass of the `Bars` component: svg extent (line 117),
bars (lines 118-162) and tooltip (lines 233-278). -/
def Bars (p : BarsProps) (st : BarsState) : BarsLayout :=
  { svgWidth := jadd (JSVal.num (normWidth p.width + 2 * p.paddingXaxis
      + normStroke p.strokeWidthAxe
      + effectivePaddingY p.yAxisLabelShow st.yLabelWidth)) (spacingOf p)
    svgHeight := JSVal.num (normHeight p.height + 2 * p.paddingYaxis
      + normStroke p.strokeWidthAxe
      + effectivePaddingX p.xAxisLabelShow st.xLabelWidth
          p.showLabelsTickX st.labelsTickXHeight)
    bars := barsOf p st
    tooltip := tooltipOf p st }

/-- The clamp the specification describes for the spacing:
`clamp(barsSpacing, 0, barWidth - 2)` (spec §4.3).  Stated from the spec's
words, to be compared with `effectiveSpacing` above. -/
def specClamp (barsSpacing bw : ℚ) : ℚ := min (max barsSpacing 0) (bw - 2)

/-! ### Arithmetic facts about the JavaScript-number model -/

namespace JSVal

@[simp] lemma jadd_num_num (a b : ℚ) : jadd (num a) (num b) = num (a + b) := rfl

@[simp] lemma jneg_num (a : ℚ) : jneg (num a) = num (-a) := rfl

@[simp] lemma jsub_num_num (a b : ℚ) : jsub (num a) (num b) = num (a - b) := by
  show num (a + -b) = num (a - b)
  rw [← sub_eq_add_neg]

@[simp] lemma jmul_num_num (a b : ℚ) : jmul (num a) (num b) = num (a * b) := rfl

lemma jdiv_num_num (a : ℚ) {b : ℚ} (hb : b ≠ 0) : jdiv (num a) (num b) = num (a / b) := by
  simp [jdiv, hb]

@[simp] lemma jdiv_num_two (a : ℚ) : jdiv (num a) (num 2) = num (a / 2) :=
  jdiv_num_num a two_ne_zero

@[simp] lemma jlt_num_num (a b : ℚ) : jlt (num a) (num b) = decide (a < b) := rfl

@[simp] lemma jgt_num_num (a b : ℚ) : jgt (num a) (num b) = decide (b < a) := rfl

@[simp] lemma jgt_num_posInf (a : ℚ) : jgt (num a) posInf = false := rfl

@[simp] lemma jadd_nan_left (x : JSVal) : jadd nan x = nan := by cases x <;> rfl

@[simp] lemma jadd_nan_right (x : JSVal) : jadd x nan = nan := by cases x <;> rfl

@[simp] lemma jneg_nan : jneg nan = nan := rfl

@[simp] lemma jsub_nan_left (x : JSVal) : jsub nan x = nan := by cases x <;> rfl

@[simp] lemma jsub_nan_right (x : JSVal) : jsub x nan = nan := by cases x <;> rfl

@[simp] lemma jmul_nan_left (x : JSVal) : jmul nan x = nan := by cases x <;> rfl

@[simp] lemma jmul_nan_right (x : JSVal) : jmul x nan = nan := by cases x <;> rfl

@[simp] lemma jdiv_zero_zero : jdiv (num 0) (num 0) = nan := by simp [jdiv]

@[simp] lemma jmax2_negInf_left (x : JSVal) : jmax2 negInf x = x := by cases x <;> rfl

@[simp] lemma jmax2_num_num (a b : ℚ) : jmax2 (num a) (num b) = num (max a b) := rfl

lemma foldl_jmax2_num (a : ℚ) (l : List ℚ) :
    List.foldl jmax2 (num a) (l.map num) = num (List.foldl max a l) := by
  induction l generalizing a with
  | nil => rfl
  | cons x xs ih => simpa using ih (max a x)

lemma jsMathMax_map_num (a : ℚ) (l : List ℚ) :
    jsMathMax ((a :: l).map num) = num (List.foldl max a l) := by
  unfold jsMathMax
  rw [List.map_cons, List.foldl_cons, jmax2_negInf_left, foldl_jmax2_num]

end JSVal

lemma foldl_max_eq_zero {l : List ℚ} (h : ∀ x ∈ l, x = 0) : List.foldl max 0 l = 0 := by
  induction l with
  | nil => rfl
  | cons x xs ih =>
    have hx : x = 0 := h x (List.mem_cons_self x xs)
    subst hx
    simp only [List.foldl_cons, max_self]
    exact ih fun y hy => h y (List.mem_cons_of_mem _ hy)

/-! ### Facts about indexed filtering and mapping -/

lemma filterIdx_eq_self {p : ℕ → Bool} {l : List α} {s : ℕ}
    (h : ∀ i, s ≤ i → i < s + l.length → p i = true) : filterIdx p s l = l := by
  induction l generalizing s with
  | nil => rfl
  | cons a as ih =>
    have hs : p s = true := h s le_rfl (by simp)
    simp only [filterIdx, hs, if_true]
    rw [ih fun i h1 h2 => h i (by omega) (by simp at h2 ⊢; omega)]

lemma filterIdx_eq_nil {p : ℕ → Bool} {l : List α} {s : ℕ}
    (h : ∀ i, s ≤ i → i < s + l.length → p i = false) : filterIdx p s l = [] := by
  induction l generalizing s with
  | nil => rfl
  | cons a as ih =>
    have hs : p s = false := h s le_rfl (by simp)
    simp only [filterIdx, hs, if_false, Bool.false_eq_true]
    exact ih fun i h1 h2 => h i (by omega) (by simp at h2 ⊢; omega)

lemma mem_filterIdx {p : ℕ → Bool} {l : List α} {s : ℕ} {x : α}
    (hx : x ∈ filterIdx p s l) : x ∈ l := by
  induction l generalizing s with
  | nil => simp [filterIdx] at hx
  | cons a as ih =>
    simp only [filterIdx] at hx
    by_cases hp : p s
    · rw [if_pos hp] at hx
      rcases List.mem_cons.mp hx with h | h
      · exact h ▸ List.mem_cons_self a as
      · exact List.mem_cons_of_mem _ (ih h)
    · rw [if_neg hp] at hx
      exact List.mem_cons_of_mem _ (ih hx)

lemma filterIdx_congr {p q : ℕ → Bool} (h : ∀ i, p i = q i) (s : ℕ) (l : List α) :
    filterIdx p s l = filterIdx q s l := by
  induction l generalizing s with
  | nil => rfl
  | cons a as ih => simp only [filterIdx, h, ih]

lemma filterIdx_enumFrom (p : ℕ → Bool) (s : ℕ) (l : List α) :
    filterIdx p s l = ((l.enumFrom s).filter (fun q => p q.1)).map Prod.snd := by
  induction l generalizing s with
  | nil => rfl
  | cons a as ih =>
    by_cases h : p s <;>
      simp [filterIdx, List.enumFrom, List.filter_cons, h, ih (s + 1)]

lemma mapWithIndex_getElem? (f : ℕ → α → β) (s i : ℕ) (l : List α) :
    (mapWithIndex f s l)[i]? = (l[i]?).map (f (s + i)) := by
  induction l generalizing s i with
  | nil => simp [mapWithIndex]
  | cons a as ih =>
    cases i with
    | zero => simp [mapWithIndex]
    | succ j =>
      show (f s a :: mapWithIndex f (s + 1) as)[j + 1]? = _
      rw [List.getElem?_cons_succ, ih (s + 1) j, List.getElem?_cons_succ]
      have h1 : s + 1 + j = s + (j + 1) := by omega
      rw [h1]

lemma length_mapWithIndex (f : ℕ → α → β) (s : ℕ) (l : List α) :
    (mapWithIndex f s l).length = l.length := by
  induction l generalizing s with
  | nil => rfl
  | cons a as ih => simp [mapWithIndex, ih]

lemma mem_mapWithIndex {f : ℕ → α → β} {s : ℕ} {l : List α} {b : β}
    (hb : b ∈ mapWithIndex f s l) : ∃ i a, l[i]? = some a ∧ b = f (s + i) a := by
  induction l generalizing s with
  | nil => simp [mapWithIndex] at hb
  | cons x xs ih =>
    simp only [mapWithIndex, List.mem_cons] at hb
    rcases hb with h | h
    · exact ⟨0, x, by simp, by simpa using h⟩
    · obtain ⟨i, a, h1, h2⟩ := ih h
      refine ⟨i + 1, a, by simpa using h1, ?_⟩
      rw [h2]
      congr 1
      omega

/-! ### The length of the window: at most `⌈numberShownColumns⌉` entries survive -/

lemma filterIdx_window_length (init nc : ℚ) (l : List α) (s : ℕ) :
    (filterIdx (fun i => decide ((i : ℚ) < nc + init) && decide ((i : ℚ) ≥ init)) s l).length
      ≤ (⌈nc + init⌉ - max (s : ℤ) ⌈init⌉).toNat := by
  induction l generalizing s with
  | nil => simp [filterIdx]
  | cons a as ih =>
    simp only [filterIdx]
    by_cases hlt : (s : ℚ) < nc + init
    · by_cases hge : (s : ℚ) ≥ init
      · rw [if_pos (by simp [hlt, hge])]
        have hceil1 : (s : ℤ) < ⌈nc + init⌉ := Int.lt_ceil.mpr (by exact_mod_cast hlt)
        have hceil2 : ⌈init⌉ ≤ (s : ℤ) := Int.ceil_le.mpr (by exact_mod_cast hge)
        have h1 := ih (s + 1)
        rw [List.length_cons]
        have hmax1 : max ((s : ℤ) + 1) ⌈init⌉ = (s : ℤ) + 1 := max_eq_left (by omega)
        have hmax0 : max (s : ℤ) ⌈init⌉ = (s : ℤ) := max_eq_left hceil2
        rw [hmax0]
        have h2 : ((s + 1 : ℕ) : ℤ) = (s : ℤ) + 1 := by push_cast; ring
        rw [h2, hmax1] at h1
        omega
      · rw [if_neg (by simp [hge])]
        refine le_trans (ih (s + 1)) (Int.toNat_le_toNat ?_)
        have h2 : ((s + 1 : ℕ) : ℤ) = (s : ℤ) + 1 := by push_cast; ring
        rw [h2]
        have : max (s : ℤ) ⌈init⌉ ≤ max ((s : ℤ) + 1) ⌈init⌉ :=
          max_le_max (by omega) le_rfl
        omega
    · rw [if_neg (by simp [hlt])]
      refine le_trans (ih (s + 1)) (Int.toNat_le_toNat ?_)
      have h2 : ((s + 1 : ℕ) : ℤ) = (s : ℤ) + 1 := by push_cast; ring
      rw [h2]
      have : max (s : ℤ) ⌈init⌉ ≤ max ((s : ℤ) + 1) ⌈init⌉ :=
        max_le_max (by omega) le_rfl
      omega

lemma windowFilter_length_le (data : List α) (init nc : ℚ) :
    (windowFilter data init nc).length ≤ (⌈nc + init⌉ - max 0 ⌈init⌉).toNat := by
  have h := filterIdx_window_length init nc data 0
  simpa [windowFilter] using h

lemma ceil_sub_max_le (init nc : ℚ) : ⌈nc + init⌉ - max 0 ⌈init⌉ ≤ ⌈nc⌉ := by
  rcases le_total 0 ⌈init⌉ with h | h
  · rw [max_eq_right h]
    have hle : ⌈nc + init⌉ ≤ ⌈nc⌉ + ⌈init⌉ := by
      apply Int.ceil_le.mpr
      push_cast
      exact add_le_add (Int.le_ceil nc) (Int.le_ceil init)
    omega
  · rw [max_eq_left h]
    have hinit : init ≤ 0 := by
      have h1 : init ≤ (⌈init⌉ : ℚ) := Int.le_ceil init
      have h2 : ((⌈init⌉ : ℤ) : ℚ) ≤ 0 := by exact_mod_cast h
      linarith
    have : ⌈nc + init⌉ ≤ ⌈nc⌉ := Int.ceil_le_ceil (by linarith)
    omega

lemma windowFilter_pos_lt {data : List α} {init nc : ℚ} {p : ℕ}
    (hp : p < (windowFilter data init nc).length) : (p : ℚ) < nc := by
  have h1 := windowFilter_length_le data init nc
  have h2 : (p : ℤ) < ⌈nc + init⌉ - max 0 ⌈init⌉ := by omega
  have h3 : (p : ℤ) < ⌈nc⌉ := lt_of_lt_of_le h2 (ceil_sub_max_le init nc)
  have h4 : ((p : ℤ) : ℚ) + 1 ≤ ((⌈nc⌉ : ℤ) : ℚ) := by exact_mod_cast h3
  have h5 : ((⌈nc⌉ : ℤ) : ℚ) < nc + 1 := Int.ceil_lt_add_one nc
  push_cast at h4
  linarith

lemma secondFilter_windowFilter (data : List α) (init nc : ℚ) :
    secondFilter (windowFilter data init nc) nc = windowFilter data init nc := by
  apply filterIdx_eq_self
  intro i _ hi
  simp only [Nat.zero_add] at hi
  exact decide_eq_true (@windowFilter_pos_lt _ data init nc i (by omega))

lemma windowFilter_length_le_nat (data : List α) (init : ℚ) (n : ℕ) :
    (windowFilter data init (n : ℚ)).length ≤ n := by
  have h1 := windowFilter_length_le data init (n : ℚ)
  have h2 : ⌈(n : ℚ) + init⌉ = ⌈init⌉ + n := by
    rw [add_comm]
    exact_mod_cast Int.ceil_add_int init (n : ℤ)
  rw [h2] at h1
  rcases le_total 0 ⌈init⌉ with h | h
  · rw [max_eq_right h] at h1
    omega
  · rw [max_eq_left h] at h1
    omega

/-! ### Facts about the normalisation clamps and the pipeline quantities -/

lemma normWidth_ge (w : ℚ) : 100 ≤ normWidth w := by
  unfold normWidth
  split <;> linarith

lemma normHeight_ge (h : ℚ) : 100 ≤ normHeight h := by
  unfold normHeight
  split <;> linarith

lemma normStroke_nonneg {s : ℚ} (hs : 0 ≤ s) : 0 ≤ normStroke s := by
  unfold normStroke
  split <;> linarith

lemma effectivePaddingY_nonneg (b : Bool) {w : ℚ} (hw : 0 ≤ w) :
    0 ≤ effectivePaddingY b w := by
  unfold effectivePaddingY
  split <;> linarith

lemma effectivePaddingX_nonneg (b1 b2 : Bool) {w h : ℚ} (hw : 0 ≤ w) (hh : 0 ≤ h) :
    0 ≤ effectivePaddingX b1 w b2 h := by
  unfold effectivePaddingX
  split <;> split <;> linarith

lemma effectiveSpacing_num (bs W : ℚ) :
    effectiveSpacing bs (JSVal.num W)
      = JSVal.num (if bs < 0 then 0 else if W < bs then W - 2 else bs) := by
  unfold effectiveSpacing
  by_cases h1 : bs < 0
  · simp [h1]
  · by_cases h2 : W < bs <;> simp [h1, h2]

lemma effectiveSpacing_posInf (bs : ℚ) :
    effectiveSpacing bs JSVal.posInf = JSVal.num (if bs < 0 then 0 else bs) := by
  unfold effectiveSpacing
  by_cases h : bs < 0 <;> simp [h, jgt, jlt]

lemma barWidthOf_cases (p : BarsProps) :
    (∃ W : ℚ, barWidthOf p = JSVal.num W) ∨ barWidthOf p = JSVal.posInf := by
  unfold barWidthOf barWidth
  by_cases hm : min p.numberShownColumns (((visibleSlice p).length : ℕ) : ℚ) = 0
  · right
    have hw : (0 : ℚ) < normWidth p.width :=
      lt_of_lt_of_le (by norm_num) (normWidth_ge p.width)
    rw [hm]
    simp [jdiv, hw.ne', hw]
  · left
    exact ⟨_, jdiv_num_num _ hm⟩

lemma spacingOf_num (p : BarsProps) : ∃ s : ℚ, spacingOf p = JSVal.num s := by
  unfold spacingOf
  rcases barWidthOf_cases p with ⟨W, hW⟩ | h
  · rw [hW, effectiveSpacing_num]
    exact ⟨_, rfl⟩
  · rw [h, effectiveSpacing_posInf]
    exact ⟨_, rfl⟩

lemma barWidthOf_empty {p : BarsProps} (hslice : visibleSlice p = [])
    (hnc : 0 ≤ p.numberShownColumns) : barWidthOf p = JSVal.posInf := by
  unfold barWidthOf barWidth
  rw [hslice]
  have hw : (0 : ℚ) < normWidth p.width :=
    lt_of_lt_of_le (by norm_num) (normWidth_ge p.width)
  have hm : min p.numberShownColumns ((([] : List DataPoint).length : ℕ) : ℚ) = 0 := by
    simpa using min_eq_right hnc
  rw [hm]
  simp [jdiv, hw.ne', hw]

/-! ### Facts about the slice and the scale -/

lemma windowFilter_nc_pos {data : List α} {init nc : ℚ}
    (h : windowFilter data init nc ≠ []) : 0 < nc := by
  by_contra hnc
  push_neg at hnc
  apply h
  apply filterIdx_eq_nil
  intro i _ _
  have hfalse : ¬ ((i : ℚ) < nc + init ∧ (i : ℚ) ≥ init) := by
    rintro ⟨h1, h2⟩
    linarith
  rw [Bool.and_eq_false_iff]
  by_cases hA : (i : ℚ) < nc + init
  · right
    exact decide_eq_false fun hB => hfalse ⟨hA, hB⟩
  · left
    exact decide_eq_false hA

lemma secondFilter_cons_of_pos {d : α} {rest : List α} {nc : ℚ} (h : 0 < nc) :
    secondFilter (d :: rest) nc
      = d :: filterIdx (fun i => decide ((i : ℚ) < nc)) 1 rest := by
  unfold secondFilter
  simp only [filterIdx]
  rw [if_pos (by simpa using h)]

lemma maxValue_all_zero {slice : List DataPoint} {nc : ℚ}
    (hne : secondFilter slice nc ≠ [])
    (h0 : ∀ d ∈ slice, d.value = 0) : maxValue slice nc = JSVal.num 0 := by
  unfold maxValue
  obtain ⟨d, rest, hcons⟩ : ∃ d rest, secondFilter slice nc = d :: rest := by
    cases hsf : secondFilter slice nc with
    | nil => exact absurd hsf hne
    | cons d rest => exact ⟨d, rest, rfl⟩
  rw [hcons]
  have hmaps : (d :: rest).map (fun x => JSVal.num x.value)
      = (d.value :: rest.map DataPoint.value).map JSVal.num := by
    simp [List.map_map, Function.comp_def]
  rw [hmaps, jsMathMax_map_num]
  have hd : d.value = 0 := by
    apply h0
    have hmem : d ∈ secondFilter slice nc := by
      rw [hcons]
      exact List.mem_cons_self d rest
    exact mem_filterIdx hmem
  rw [hd]
  rw [foldl_max_eq_zero]
  intro x hx
  obtain ⟨e, he, hev⟩ := List.mem_map.mp hx
  have hmem : e ∈ slice := by
    have hmem2 : e ∈ secondFilter slice nc := by
      rw [hcons]
      exact List.mem_cons_of_mem d he
    exact mem_filterIdx hmem2
  rw [← hev]
  exact h0 e hmem

/-! ### Concrete fixtures used to exercise the layout -/

def dpA : DataPoint := ⟨"A", 10⟩

def dpB : DataPoint := ⟨"B", 20⟩

/-- A base configuration: `width 200 × height 100`, two visible columns,
stroke `1`, spacing `2`, no labels, no extra padding. -/
def baseProps : BarsProps :=
  { data := []
    width := 200
    height := 100
    strokeWidthAxe := 1
    numberShownColumns := 2
    initialValue := 0
    xAxisLabelShow := false
    yAxisLabelShow := false
    paddingXaxis := 0
    paddingYaxis := 0
    showLabelsTickX := false
    barsSpacing := 2
    animated := true }

/-- State before any measurement, entrance or hover. -/
def idleState : BarsState := ⟨0, 0, 0, false, none⟩

/-- State after the entrance timer fired, hovering the bar at index 1. -/
def hoverState : BarsState := ⟨0, 0, 0, true, some 1⟩

/-- Both visible values are `0`. -/
def zeroProps : BarsProps := { baseProps with data := [⟨"A", 0⟩, ⟨"B", 0⟩] }

/-- The spec's worked scenario: `[("A",10), ("B",20)]`, two columns. -/
def scenarioProps : BarsProps := { baseProps with data := [dpA, dpB] }

/-- An empty dataset rendered with a negative `numberShownColumns`. -/
def emptyProps : BarsProps :=
  { baseProps with width := 50, height := 50, numberShownColumns := -100 }

/-- `barsSpacing = 99` against a bar width of `100`. -/
def clampProps : BarsProps := { baseProps with data := [dpA, dpB], barsSpacing := 99 }

/-- 51 one-valued points shown at once on a 100-pixel-wide chart, making the
bar width smaller than 2. -/
def denseProps : BarsProps :=
  { baseProps with
    data := List.replicate 51 ⟨"a", 1⟩
    width := 100
    numberShownColumns := 51
    strokeWidthAxe := 0 }

/-! ### The claims -/

/-- C1, counterexample: with both visible values `0` the code computes
`maxValue = 0` but then evaluates `(0 / 0) * height`, so every bar height is
`NaN`, not `0` as the claim states. -/
theorem c1_counterexample :
    maxValueOf zeroProps = JSVal.num 0 ∧
    (Bars zeroProps idleState).bars.map BarGeom.restHeight = [JSVal.nan, JSVal.nan] ∧
    JSVal.nan ≠ JSVal.num 0 := by with_unfolding_all decide

/-- C1, amended: if every value of the non-empty visible slice is `0`, then
`maxValue = 0`, bars are rendered, and every bar's computed height, top edge
and entrance durations are `NaN` (the code divides `0 / 0`); the layout does
not treat the heights as `0`. -/
theorem c1_all_zero_gives_nan :
    ∀ (p : BarsProps) (st : BarsState),
      visibleSlice p ≠ [] → (∀ d ∈ visibleSlice p, d.value = 0) →
      maxValueOf p = JSVal.num 0 ∧ (Bars p st).bars ≠ [] ∧
      ∀ b ∈ (Bars p st).bars, b.restHeight = JSVal.nan ∧ b.restY = JSVal.nan ∧
        b.yDuration = JSVal.nan ∧ b.heightDuration = JSVal.nan := by
  intro p st hne h0
  have hnc : 0 < p.numberShownColumns := windowFilter_nc_pos hne
  obtain ⟨d, rest, hcons⟩ : ∃ d rest, visibleSlice p = d :: rest := by
    cases hv : visibleSlice p with
    | nil => exact absurd hv hne
    | cons d rest => exact ⟨d, rest, rfl⟩
  have hsne : secondFilter (visibleSlice p) p.numberShownColumns ≠ [] := by
    rw [hcons, secondFilter_cons_of_pos hnc]
    simp
  have hmax : maxValueOf p = JSVal.num 0 := maxValue_all_zero hsne h0
  refine ⟨hmax, ?_, ?_⟩
  · show barsOf p st ≠ []
    intro hnil
    apply hsne
    have hlen := length_mapWithIndex
      (mkBar (normHeight p.height) p.paddingYaxis (normStroke p.strokeWidthAxe)
        (maxValueOf p) (barWidthOf p) (spacingOf p)
        (effectivePaddingY p.yAxisLabelShow st.yLabelWidth) p.paddingXaxis
        (visibleSlice p).length st.hasMounted) 0 (shownBars p)
    rw [show mapWithIndex
      (mkBar (normHeight p.height) p.paddingYaxis (normStroke p.strokeWidthAxe)
        (maxValueOf p) (barWidthOf p) (spacingOf p)
        (effectivePaddingY p.yAxisLabelShow st.yLabelWidth) p.paddingXaxis
        (visibleSlice p).length st.hasMounted) 0 (shownBars p) = barsOf p st from rfl,
      hnil] at hlen
    exact List.length_eq_zero.mp hlen.symm
  · intro b hb
    obtain ⟨i, d', hd', hbeq⟩ := mem_mapWithIndex hb
    have hmem : d' ∈ shownBars p := by
      obtain ⟨hlt, hget⟩ := List.getElem?_eq_some.mp hd'
      rw [← hget]
      exact List.getElem_mem hlt
    have hval : d'.value = 0 := h0 d' (mem_filterIdx hmem)
    rw [hbeq]
    rw [show (Bars p st).bars = barsOf p st from rfl] at hb
    simp only [mkBar, hval, hmax]
    refine ⟨by simp, by simp, by simp, by simp⟩

/-- C1, witness: the amended theorem applied to the all-zero fixture. -/
theorem c1_witness :
    visibleSlice zeroProps ≠ [] ∧ (∀ d ∈ visibleSlice zeroProps, d.value = 0) ∧
    (maxValueOf zeroProps = JSVal.num 0 ∧ (Bars zeroProps idleState).bars ≠ [] ∧
      ∀ b ∈ (Bars zeroProps idleState).bars, b.restHeight = JSVal.nan ∧
        b.restY = JSVal.nan ∧ b.yDuration = JSVal.nan ∧ b.heightDuration = JSVal.nan) :=
  ⟨by with_unfolding_all decide, by with_unfolding_all decide,
    c1_all_zero_gives_nan zeroProps idleState (by with_unfolding_all decide) (by with_unfolding_all decide)⟩

/-- C2, counterexample: a negative `initialValue` does not empty the slice:
the filter `i < numberShownColumns + initialValue && i >= initialValue` keeps
index `0` for `initialValue = -1, numberShownColumns = 2`. -/
theorem c2_counterexample :
    ((-1 : ℚ) < 0) ∧ windowFilter [dpA, dpB] (-1 : ℚ) 2 = [dpA] ∧
    ([dpA] : List DataPoint) ≠ [] := by with_unfolding_all decide

/-- C2, amended: the Window Selector keeps exactly the entries whose original
index `i` satisfies `initialValue ≤ i < initialValue + numberShownColumns`,
preserving order; the slice is empty when `numberShownColumns ≤ 0` or when
`initialValue` is at or beyond the data length; but a negative `initialValue`
does not empty the slice — it behaves as the window
`[0, initialValue + numberShownColumns)`. -/
theorem c2_window_selector :
    ∀ (data : List DataPoint) (initialValue numberShownColumns : ℚ),
      windowFilter data initialValue numberShownColumns
        = ((data.enumFrom 0).filter (fun q => decide (initialValue ≤ (q.1 : ℚ)
            ∧ (q.1 : ℚ) < initialValue + numberShownColumns))).map Prod.snd ∧
      (numberShownColumns ≤ 0 → windowFilter data initialValue numberShownColumns = []) ∧
      ((data.length : ℚ) ≤ initialValue →
        windowFilter data initialValue numberShownColumns = []) ∧
      (initialValue < 0 → windowFilter data initialValue numberShownColumns
        = windowFilter data 0 (initialValue + numberShownColumns)) := by
  intro data init nc
  refine ⟨?_, ?_, ?_, ?_⟩
  · rw [windowFilter, filterIdx_enumFrom]
    apply congrArg (List.map Prod.snd)
    apply List.filter_congr
    intro q _
    rw [add_comm nc init]
    simp [Bool.decide_and, Bool.and_comm, ge_iff_le]
  · intro hnc
    by_contra h
    exact absurd (windowFilter_nc_pos h) (not_lt.mpr hnc)
  · intro hlen
    apply filterIdx_eq_nil
    intro i _ hi
    rw [Bool.and_eq_false_iff]
    right
    apply decide_eq_false
    intro hge
    have hcast : (i : ℚ) < (data.length : ℚ) := by
      exact_mod_cast (by omega : i < data.length)
    rw [ge_iff_le] at hge
    linarith
  · intro hinit
    apply filterIdx_congr
    intro i
    have h1 : (i : ℚ) ≥ init := le_trans hinit.le (Nat.cast_nonneg i)
    have h2 : (i : ℚ) ≥ 0 := Nat.cast_nonneg i
    have h3 : nc + init = init + nc + 0 := by ring
    rw [h3, decide_eq_true h1, decide_eq_true h2]

/-- C2, witness: the amended theorem applied at `initialValue = -1`,
`numberShownColumns = 2` on a two-point dataset. -/
theorem c2_witness :
    windowFilter [dpA, dpB] (-1 : ℚ) 2 = windowFilter [dpA, dpB] 0 ((-1 : ℚ) + 2) ∧
    ((-1 : ℚ) < 0) :=
  ⟨(c2_window_selector [dpA, dpB] (-1) 2).2.2.2 (by norm_num), by norm_num⟩

/-- C3, counterexample: with `barWidth = 100` and `barsSpacing = 99` the code
keeps the spacing at `99` (only values strictly greater than `barWidth` are
pulled back), whereas `clamp(99, 0, 98) = 98`; only one pixel of bar
remains. -/
theorem c3_counterexample :
    effectiveSpacing 99 (JSVal.num 100) = JSVal.num 99 ∧ specClamp 99 100 = 98 ∧
    (99 : ℚ) ≠ 98 := by with_unfolding_all decide

/-- C3, amended: for a finite `barWidth`, the effective spacing is `0` when
`barsSpacing` is negative, `barWidth - 2` when `barsSpacing` strictly exceeds
`barWidth` (in particular `1000` against `100` yields `98`), and `barsSpacing`
unchanged otherwise; it agrees with the spec's `clamp(barsSpacing, 0,
barWidth - 2)` when `barsSpacing ≤ barWidth - 2`, but on
`barWidth - 2 < barsSpacing ≤ barWidth` the spacing is not clamped, so fewer
than two pixels (possibly zero) of bar may remain. -/
theorem c3_spacing_clamp :
    (∀ bs W : ℚ,
      (bs < 0 → effectiveSpacing bs (JSVal.num W) = JSVal.num 0) ∧
      (0 ≤ bs → W < bs → effectiveSpacing bs (JSVal.num W) = JSVal.num (W - 2)) ∧
      (0 ≤ bs → bs ≤ W → effectiveSpacing bs (JSVal.num W) = JSVal.num bs) ∧
      (0 ≤ bs → bs ≤ W - 2 →
        effectiveSpacing bs (JSVal.num W) = JSVal.num (specClamp bs W))) ∧
    effectiveSpacing 1000 (JSVal.num 100) = JSVal.num 98 ∧ specClamp 1000 100 = 98 := by
  refine ⟨?_, by with_unfolding_all decide, by with_unfolding_all decide⟩
  intro bs W
  refine ⟨?_, ?_, ?_, ?_⟩
  · intro h1
    rw [effectiveSpacing_num, if_pos h1]
  · intro h1 h2
    rw [effectiveSpacing_num, if_neg (not_lt.mpr h1), if_pos h2]
  · intro h1 h2
    rw [effectiveSpacing_num, if_neg (not_lt.mpr h1), if_neg (not_lt.mpr h2)]
  · intro h1 h2
    rw [effectiveSpacing_num, if_neg (not_lt.mpr h1),
      if_neg (not_lt.mpr (by linarith))]
    unfold specClamp
    rw [max_eq_left h1, min_eq_left h2]

lemma barsOf_getElem (p : BarsProps) (st : BarsState) (i : ℕ) :
    (Bars p st).bars[i]? = ((shownBars p)[i]?).map
      (mkBar (normHeight p.height) p.paddingYaxis (normStroke p.strokeWidthAxe)
        (maxValueOf p) (barWidthOf p) (spacingOf p)
        (effectivePaddingY p.yAxisLabelShow st.yLabelWidth) p.paddingXaxis
        (visibleSlice p).length st.hasMounted i) := by
  show (barsOf p st)[i]? = _
  unfold barsOf
  rw [mapWithIndex_getElem?, Nat.zero_add]

/-- C3, witness: the amended theorem applied at `barsSpacing = 1000`,
`barWidth = 100` (the spec's scenario) and at `barsSpacing = 99`. -/
theorem c3_witness :
    ((0 : ℚ) ≤ 1000 ∧ (100 : ℚ) < 1000 ∧
      effectiveSpacing 1000 (JSVal.num 100) = JSVal.num (100 - 2)) ∧
    ((0 : ℚ) ≤ 99 ∧ (99 : ℚ) ≤ 100 ∧
      effectiveSpacing 99 (JSVal.num 100) = JSVal.num 99) :=
  ⟨⟨by norm_num, by norm_num,
      (c3_spacing_clamp.1 1000 100).2.1 (by norm_num) (by norm_num)⟩,
    ⟨by norm_num, by norm_num,
      (c3_spacing_clamp.1 99 100).2.2.1 (by norm_num) (by norm_num)⟩⟩

/-- C4: for every bar of the render loop, `barY = height - barHeight +
paddingYaxis - strokeWidthAxe/2`, `barX = i*barWidth + effectivePaddingY +
paddingXaxis + strokeWidthAxe + effectiveSpacing` and `barHeight =
(value/maxValue)*height` with `barWidth = width/min(numberShownColumns,
sliceLength)`; on the spec's scenario (`[("A",10),("B",20)]`, two columns,
`200×100`) this gives `maxValue = 20`, `barWidth = 100` and bar heights `50`
and `100`. -/
theorem c4_bar_geometry :
    (∀ (p : BarsProps) (st : BarsState) (i : ℕ) (d : DataPoint) (M W : ℚ),
      (shownBars p)[i]? = some d →
      maxValueOf p = JSVal.num M → M ≠ 0 →
      barWidthOf p = JSVal.num W →
      ∃ (b : BarGeom) (s : ℚ),
        (Bars p st).bars[i]? = some b ∧ spacingOf p = JSVal.num s ∧
        b.restHeight = JSVal.num (d.value / M * normHeight p.height) ∧
        b.restY = JSVal.num (normHeight p.height - d.value / M * normHeight p.height
          + p.paddingYaxis - normStroke p.strokeWidthAxe / 2) ∧
        b.x = JSVal.num ((i : ℚ) * W
          + effectivePaddingY p.yAxisLabelShow st.yLabelWidth
          + p.paddingXaxis + normStroke p.strokeWidthAxe + s)) ∧
    (maxValueOf scenarioProps = JSVal.num 20 ∧
      barWidthOf scenarioProps = JSVal.num 100 ∧
      (Bars scenarioProps idleState).bars.map BarGeom.restHeight
        = [JSVal.num 50, JSVal.num 100]) := by
  constructor
  · intro p st i d M W hd hM hM0 hW
    obtain ⟨s, hs⟩ := spacingOf_num p
    refine ⟨mkBar (normHeight p.height) p.paddingYaxis (normStroke p.strokeWidthAxe)
      (maxValueOf p) (barWidthOf p) (spacingOf p)
      (effectivePaddingY p.yAxisLabelShow st.yLabelWidth) p.paddingXaxis
      (visibleSlice p).length st.hasMounted i d, s, ?_, hs, ?_, ?_, ?_⟩
    · rw [barsOf_getElem, hd]
      rfl
    · simp only [mkBar]
      rw [hM, jdiv_num_num _ hM0, jmul_num_num]
    · simp only [mkBar]
      rw [hM, jdiv_num_num _ hM0, jmul_num_num, jsub_num_num, jadd_num_num,
        jdiv_num_two, jsub_num_num]
    · simp only [mkBar]
      rw [hW, hs, jmul_num_num, jadd_num_num, jadd_num_num, jadd_num_num,
        jadd_num_num]
  · exact ⟨by with_unfolding_all decide, by with_unfolding_all decide,
      by with_unfolding_all decide⟩

/-- C4, witness: the geometry formulas applied to bar 1 of the scenario
(`value 20`, `maxValue 20`, `barWidth 100`). -/
theorem c4_witness :
    (shownBars scenarioProps)[1]? = some dpB ∧
    maxValueOf scenarioProps = JSVal.num 20 ∧ ((20 : ℚ) ≠ 0) ∧
    barWidthOf scenarioProps = JSVal.num 100 ∧
    ∃ (b : BarGeom) (s : ℚ),
      (Bars scenarioProps idleState).bars[1]? = some b ∧
      spacingOf scenarioProps = JSVal.num s ∧
      b.restHeight = JSVal.num (dpB.value / 20 * normHeight scenarioProps.height) ∧
      b.restY = JSVal.num (normHeight scenarioProps.height
        - dpB.value / 20 * normHeight scenarioProps.height
        + scenarioProps.paddingYaxis - normStroke scenarioProps.strokeWidthAxe / 2) ∧
      b.x = JSVal.num ((1 : ℕ) * 100
        + effectivePaddingY scenarioProps.yAxisLabelShow idleState.yLabelWidth
        + scenarioProps.paddingXaxis + normStroke scenarioProps.strokeWidthAxe + s) :=
  ⟨by with_unfolding_all decide, by with_unfolding_all decide, by norm_num,
    by with_unfolding_all decide,
    c4_bar_geometry.1 scenarioProps idleState 1 dpB 20 100
      (by with_unfolding_all decide) (by with_unfolding_all decide) (by norm_num)
      (by with_unfolding_all decide)⟩

/-- C5, counterexample: an empty dataset rendered with
`numberShownColumns = -100` (a window selecting zero points) produces an svg
width of `98 < 100`: `barWidth = 100 / min(-100, 0) = -1`, the spacing clamp
yields `-1 - 2 = -3`, and the canvas shrinks below the normalised minimum. -/
theorem c5_counterexample :
    visibleSlice emptyProps = [] ∧ (Bars emptyProps idleState).bars = [] ∧
    (Bars emptyProps idleState).svgWidth = JSVal.num 98 ∧ ((98 : ℚ) < 100) := by
  with_unfolding_all decide

/-- C5, amended: for any window selecting zero points, the layout succeeds
with zero bars, no tooltip and finite canvas dimensions (the `EmptyDataset`
condition is recovered locally); the canvas dimensions respect the normalised
minimums `100 × 100` provided `numberShownColumns`, the paddings, the stroke
width and the measured extents are nonnegative — with a negative
`numberShownColumns` the spacing clamp can turn negative and push the svg
width below `100`. -/
theorem c5_empty_dataset :
    ∀ (p : BarsProps) (st : BarsState),
      visibleSlice p = [] →
      0 ≤ p.numberShownColumns → 0 ≤ p.paddingXaxis → 0 ≤ p.paddingYaxis →
      0 ≤ p.strokeWidthAxe → 0 ≤ st.yLabelWidth → 0 ≤ st.xLabelWidth →
      0 ≤ st.labelsTickXHeight →
      (Bars p st).bars = [] ∧ (Bars p st).tooltip = none ∧
      ∃ cw ch : ℚ, (Bars p st).svgWidth = JSVal.num cw ∧ 100 ≤ cw ∧
        (Bars p st).svgHeight = JSVal.num ch ∧ 100 ≤ ch := by
  intro p st hslice hnc hpx hpy hstroke hyl hxl htick
  have hbw : barWidthOf p = JSVal.posInf := barWidthOf_empty hslice hnc
  have hsp : spacingOf p
      = JSVal.num (if p.barsSpacing < 0 then 0 else p.barsSpacing) := by
    unfold spacingOf
    rw [hbw, effectiveSpacing_posInf]
  have hsp0 : 0 ≤ (if p.barsSpacing < 0 then 0 else p.barsSpacing) := by
    split
    · exact le_rfl
    · linarith
  have hstroke' : 0 ≤ normStroke p.strokeWidthAxe := normStroke_nonneg hstroke
  have heffy : 0 ≤ effectivePaddingY p.yAxisLabelShow st.yLabelWidth :=
    effectivePaddingY_nonneg p.yAxisLabelShow hyl
  have heffx : 0 ≤ effectivePaddingX p.xAxisLabelShow st.xLabelWidth
      p.showLabelsTickX st.labelsTickXHeight :=
    effectivePaddingX_nonneg p.xAxisLabelShow p.showLabelsTickX hxl htick
  refine ⟨?_, ?_, ?_⟩
  · show barsOf p st = []
    unfold barsOf shownBars
    rw [hslice]
    rfl
  · show tooltipOf p st = none
    unfold tooltipOf
    cases hh : st.hoveredIndex with
    | none => rfl
    | some idx =>
      cases hm : st.hasMounted with
      | false => rfl
      | true =>
        rw [hslice]
        rfl
  · refine ⟨normWidth p.width + 2 * p.paddingXaxis + normStroke p.strokeWidthAxe
      + effectivePaddingY p.yAxisLabelShow st.yLabelWidth
      + (if p.barsSpacing < 0 then 0 else p.barsSpacing),
      normHeight p.height + 2 * p.paddingYaxis + normStroke p.strokeWidthAxe
      + effectivePaddingX p.xAxisLabelShow st.xLabelWidth
        p.showLabelsTickX st.labelsTickXHeight, ?_, ?_, rfl, ?_⟩
    · show jadd (JSVal.num _) (spacingOf p) = _
      rw [hsp, jadd_num_num]
    · have hw := normWidth_ge p.width
      linarith
    · have hh := normHeight_ge p.height
      linarith

/-- C5, witness: the amended theorem applied to `data = []` with the default
configuration. -/
theorem c5_witness :
    visibleSlice baseProps = [] ∧ ((0 : ℚ) ≤ baseProps.numberShownColumns) ∧
    ((Bars baseProps idleState).bars = [] ∧ (Bars baseProps idleState).tooltip = none ∧
      ∃ cw ch : ℚ, (Bars baseProps idleState).svgWidth = JSVal.num cw ∧ 100 ≤ cw ∧
        (Bars baseProps idleState).svgHeight = JSVal.num ch ∧ 100 ≤ ch) :=
  ⟨by with_unfolding_all decide, by with_unfolding_all decide,
    c5_empty_dataset baseProps idleState (by with_unfolding_all decide)
      (by with_unfolding_all decide) (by with_unfolding_all decide)
      (by with_unfolding_all decide) (by with_unfolding_all decide)
      (by with_unfolding_all decide) (by with_unfolding_all decide)
      (by with_unfolding_all decide)⟩

/-- C6: for every input, the canvas width is `width + 2*paddingXaxis +
strokeWidthAxe + effectivePaddingY + effectiveSpacing + constant_margin`
(with `constant_margin = 0` in `src/components/Bars.tsx`) and the canvas
height is `height + 2*paddingYaxis + strokeWidthAxe + effectivePaddingX`,
where the effective paddings come from the label toggles and measured
extents. -/
theorem c6_canvas_extent :
    ∀ (p : BarsProps) (st : BarsState),
      ∃ s : ℚ, spacingOf p = JSVal.num s ∧
        (Bars p st).svgWidth = JSVal.num (normWidth p.width + 2 * p.paddingXaxis
          + normStroke p.strokeWidthAxe
          + effectivePaddingY p.yAxisLabelShow st.yLabelWidth + s + constantMargin) ∧
        (Bars p st).svgHeight = JSVal.num (normHeight p.height + 2 * p.paddingYaxis
          + normStroke p.strokeWidthAxe + effectivePaddingX p.xAxisLabelShow
            st.xLabelWidth p.showLabelsTickX st.labelsTickXHeight) := by
  intro p st
  obtain ⟨s, hs⟩ := spacingOf_num p
  refine ⟨s, hs, ?_, rfl⟩
  show jadd (JSVal.num _) (spacingOf p) = _
  rw [hs, jadd_num_num]
  simp [constantMargin]

/-- C7, counterexample: with 51 visible columns on a 100-pixel chart the bar
width is `100/51 < 2`, the default spacing `2` exceeds it, the clamp turns
the spacing negative (`100/51 - 2 = -2/51`), and bar 1 starts strictly inside
bar 0's rectangle (`x₁ = 98/51 < x₀ + (barWidth - spacing) = 100/51`): the
rectangles overlap beyond a shared endpoint. -/
theorem c7_counterexample :
    barWidthOf denseProps = JSVal.num (100 / 51) ∧
    spacingOf denseProps = JSVal.num (-2 / 51) ∧
    ((Bars denseProps idleState).bars.map BarGeom.x).take 2
      = [JSVal.num (-2 / 51), JSVal.num (98 / 51)] ∧
    ((-2 / 51 : ℚ) < 98 / 51) ∧
    ((98 / 51 : ℚ) < -2 / 51 + (100 / 51 - -2 / 51)) := by
  with_unfolding_all decide

/-- C7, amended: bar rectangles of distinct visible indices never overlap
horizontally provided the bar width is at least `2` (so that the clamped
spacing is nonnegative): for `i < j`,
`barX_i + (barWidth - effectiveSpacing) ≤ barX_j`.  When `barWidth < 2` and
`barsSpacing > barWidth`, the clamped spacing is negative and adjacent bars
overlap. -/
theorem c7_no_overlap :
    ∀ (p : BarsProps) (st : BarsState) (i j : ℕ) (bi bj : BarGeom) (W : ℚ),
      barWidthOf p = JSVal.num W → 2 ≤ W → i < j →
      (Bars p st).bars[i]? = some bi → (Bars p st).bars[j]? = some bj →
      ∃ (s xi xj : ℚ), spacingOf p = JSVal.num s ∧ 0 ≤ s ∧
        bi.x = JSVal.num xi ∧ bj.x = JSVal.num xj ∧ xi + (W - s) ≤ xj := by
  intro p st i j bi bj W hW h2W hij hbi hbj
  have hs : spacingOf p = effectiveSpacing p.barsSpacing (JSVal.num W) := by
    unfold spacingOf
    rw [hW]
  rw [effectiveSpacing_num] at hs
  set s := (if p.barsSpacing < 0 then 0
    else if W < p.barsSpacing then W - 2 else p.barsSpacing) with hs_def
  have hs0 : 0 ≤ s := by
    rw [hs_def]
    split
    · exact le_rfl
    · split
      · linarith
      · linarith
  rw [barsOf_getElem] at hbi hbj
  obtain ⟨di, hdi, hbi'⟩ := Option.map_eq_some'.mp hbi
  obtain ⟨dj, hdj, hbj'⟩ := Option.map_eq_some'.mp hbj
  have hbix : bi.x = JSVal.num ((i : ℚ) * W
      + effectivePaddingY p.yAxisLabelShow st.yLabelWidth
      + p.paddingXaxis + normStroke p.strokeWidthAxe + s) := by
    rw [← hbi']
    simp only [mkBar]
    rw [hW, hs]
    simp
  have hbjx : bj.x = JSVal.num ((j : ℚ) * W
      + effectivePaddingY p.yAxisLabelShow st.yLabelWidth
      + p.paddingXaxis + normStroke p.strokeWidthAxe + s) := by
    rw [← hbj']
    simp only [mkBar]
    rw [hW, hs]
    simp
  refine ⟨s, _, _, hs, hs0, hbix, hbjx, ?_⟩
  have hcast : (i : ℚ) + 1 ≤ (j : ℚ) := by
    exact_mod_cast Nat.succ_le_of_lt hij
  have hmul : ((i : ℚ) + 1) * W ≤ (j : ℚ) * W :=
    mul_le_mul_of_nonneg_right hcast (by linarith)
  nlinarith [hmul]

/-- C7, witness: the no-overlap bound applied to the two bars of the
scenario configuration (`barWidth = 100`). -/
theorem c7_witness :
    barWidthOf scenarioProps = JSVal.num 100 ∧ ((2 : ℚ) ≤ 100) ∧ (0 < 1) ∧
    ∃ bi bj : BarGeom,
      (Bars scenarioProps idleState).bars[0]? = some bi ∧
      (Bars scenarioProps idleState).bars[1]? = some bj ∧
      ∃ (s xi xj : ℚ), spacingOf scenarioProps = JSVal.num s ∧ 0 ≤ s ∧
        bi.x = JSVal.num xi ∧ bj.x = JSVal.num xj ∧ xi + (100 - s) ≤ xj := by
  refine ⟨by with_unfolding_all decide, by norm_num, by norm_num, ?_⟩
  have h0 : ((Bars scenarioProps idleState).bars[0]?).isSome = true := by
    with_unfolding_all decide
  have h1 : ((Bars scenarioProps idleState).bars[1]?).isSome = true := by
    with_unfolding_all decide
  obtain ⟨bi, hbi⟩ := Option.isSome_iff_exists.mp h0
  obtain ⟨bj, hbj⟩ := Option.isSome_iff_exists.mp h1
  exact ⟨bi, bj, hbi, hbj,
    c7_no_overlap scenarioProps idleState 0 1 bi bj 100
      (by with_unfolding_all decide) (by norm_num) (by norm_num) hbi hbj⟩

/-- C8: each bar's entrance delay (`y` and `height`) is `i * 0.1`, its
entrance duration is `value_i / maxValue` (both `y` and `height`), and its
fill delay is `0.05*i + sliceLength*0.075` before the entrance flag is set
and `0` afterwards. -/
theorem c8_animation_plan :
    ∀ (p : BarsProps) (st : BarsState) (i : ℕ) (d : DataPoint) (b : BarGeom),
      (shownBars p)[i]? = some d →
      (Bars p st).bars[i]? = some b →
      b.yDelay = JSVal.num ((i : ℚ) * (1 / 10)) ∧
      b.heightDelay = JSVal.num ((i : ℚ) * (1 / 10)) ∧
      b.fillDelay = (if st.hasMounted then JSVal.num 0
        else JSVal.num (1 / 20 * (i : ℚ)
          + ((visibleSlice p).length : ℚ) * (3 / 40))) ∧
      ∀ M : ℚ, maxValueOf p = JSVal.num M → M ≠ 0 →
        b.yDuration = JSVal.num (d.value / M) ∧
        b.heightDuration = JSVal.num (d.value / M) := by
  intro p st i d b hd hb
  rw [barsOf_getElem, hd, Option.map_some'] at hb
  have hbeq := (Option.some_inj.mp hb).symm
  rw [hbeq]
  refine ⟨by simp [mkBar], by simp [mkBar], ?_, ?_⟩
  · simp only [mkBar]
    cases st.hasMounted <;> simp
  · intro M hM hM0
    constructor
    · simp only [mkBar]
      rw [hM, jdiv_num_num _ hM0, jmul_num_num, one_mul]
    · simp only [mkBar]
      rw [hM, jdiv_num_num _ hM0, jmul_num_num, one_mul]

/-- C8, witness: the animation plan of bar 1 of the scenario: delay `0.1`,
duration `20/20 = 1`, fill delay `0.05 + 2*0.075`. -/
theorem c8_witness :
    (shownBars scenarioProps)[1]? = some dpB ∧
    ∃ b : BarGeom, (Bars scenarioProps idleState).bars[1]? = some b ∧
      b.yDelay = JSVal.num (((1 : ℕ) : ℚ) * (1 / 10)) ∧
      b.fillDelay = (if idleState.hasMounted then JSVal.num 0
        else JSVal.num (1 / 20 * ((1 : ℕ) : ℚ)
          + ((visibleSlice scenarioProps).length : ℚ) * (3 / 40))) ∧
      b.yDuration = JSVal.num (dpB.value / 20) := by
  refine ⟨by with_unfolding_all decide, ?_⟩
  have h1 : ((Bars scenarioProps idleState).bars[1]?).isSome = true := by
    with_unfolding_all decide
  obtain ⟨b, hb⟩ := Option.isSome_iff_exists.mp h1
  obtain ⟨hy, hhd, hf, hdur⟩ := c8_animation_plan scenarioProps idleState 1 dpB b
    (by with_unfolding_all decide) hb
  exact ⟨b, hb, hy, hf,
    (hdur 20 (by with_unfolding_all decide) (by norm_num)).1⟩

/-- C9: the tooltip is `none` exactly when no bar is hovered or the entrance
flag is not yet set; for a hovered in-range bar it is an `80×30` rectangle
horizontally centred on the bar (`x = barX + (barWidth - spacing)/2 -
80/2`), with top edge `barY - 30 - 10`, and text `"label: value"`. -/
theorem c9_tooltip :
    ∀ (p : BarsProps) (st : BarsState),
      ((∀ i ∈ st.hoveredIndex, i < (visibleSlice p).length) →
        ((Bars p st).tooltip = none ↔
          st.hoveredIndex = none ∨ st.hasMounted = false)) ∧
      (∀ (idx : ℕ) (d : DataPoint) (M W : ℚ),
        st.hoveredIndex = some idx → st.hasMounted = true →
        (visibleSlice p)[idx]? = some d →
        maxValueOf p = JSVal.num M → M ≠ 0 →
        barWidthOf p = JSVal.num W →
        ∃ (t : Tooltip) (s : ℚ),
          (Bars p st).tooltip = some t ∧ spacingOf p = JSVal.num s ∧
          t.width = JSVal.num 80 ∧ t.height = JSVal.num 30 ∧
          t.text = d.label ++ ": " ++ toString d.value ∧
          t.x = JSVal.num ((idx : ℚ) * W
            + effectivePaddingY p.yAxisLabelShow st.yLabelWidth
            + p.paddingXaxis + normStroke p.strokeWidthAxe + s
            + (W - s) / 2 - 80 / 2) ∧
          t.y = JSVal.num (normHeight p.height - d.value / M * normHeight p.height
            + p.paddingYaxis - normStroke p.strokeWidthAxe / 2 - 30 - 10)) := by
  intro p st
  constructor
  · intro hrange
    show tooltipOf p st = none ↔ _
    cases hh : st.hoveredIndex with
    | none => simp [tooltipOf, hh]
    | some idx =>
      cases hm : st.hasMounted with
      | false => simp [tooltipOf, hh, hm]
      | true =>
        have hidx : idx < (visibleSlice p).length := hrange idx (by simp [hh])
        simp [tooltipOf, hh, hm, List.getElem?_eq_getElem hidx]
  · intro idx d M W hidx hmount hget hM hM0 hW
    have hbw : barWidth (normWidth p.width) p.numberShownColumns
        (visibleSlice p).length = JSVal.num W := hW
    have hs : spacingOf p = effectiveSpacing p.barsSpacing (JSVal.num W) := by
      unfold spacingOf barWidthOf
      rw [hbw]
    rw [effectiveSpacing_num] at hs
    set s := (if p.barsSpacing < 0 then 0
      else if W < p.barsSpacing then W - 2 else p.barsSpacing) with hs_def
    have htool : (Bars p st).tooltip = some
        { x := JSVal.num ((idx : ℚ) * W
            + effectivePaddingY p.yAxisLabelShow st.yLabelWidth
            + p.paddingXaxis + normStroke p.strokeWidthAxe + s
            + (W - s) / 2 - 80 / 2)
          y := JSVal.num (normHeight p.height - d.value / M * normHeight p.height
            + p.paddingYaxis - normStroke p.strokeWidthAxe / 2 - 30 - 10)
          width := JSVal.num 80
          height := JSVal.num 30
          text := d.label ++ ": " ++ toString d.value } := by
      show tooltipOf p st = _
      simp only [tooltipOf, hidx, hmount, hget]
      rw [hbw, hM, hs]
      rw [jdiv_num_num d.value hM0]
      simp
    exact ⟨_, s, htool, hs, rfl, rfl, rfl, rfl, rfl⟩

/-- C9, witness: hovering bar 1 of the scenario after the entrance flag is
set yields the tooltip `"B: 20"` at the claimed rectangle; and with the flag
unset the tooltip is `none`. -/
theorem c9_witness :
    hoverState.hoveredIndex = some 1 ∧ hoverState.hasMounted = true ∧
    (visibleSlice scenarioProps)[1]? = some dpB ∧
    maxValueOf scenarioProps = JSVal.num 20 ∧ ((20 : ℚ) ≠ 0) ∧
    barWidthOf scenarioProps = JSVal.num 100 ∧
    (∃ (t : Tooltip) (s : ℚ),
      (Bars scenarioProps hoverState).tooltip = some t ∧
      spacingOf scenarioProps = JSVal.num s ∧
      t.width = JSVal.num 80 ∧ t.height = JSVal.num 30 ∧
      t.text = dpB.label ++ ": " ++ toString dpB.value ∧
      t.x = JSVal.num ((1 : ℕ) * 100
        + effectivePaddingY scenarioProps.yAxisLabelShow hoverState.yLabelWidth
        + scenarioProps.paddingXaxis + normStroke scenarioProps.strokeWidthAxe + s
        + (100 - s) / 2 - 80 / 2) ∧
      t.y = JSVal.num (normHeight scenarioProps.height
        - dpB.value / 20 * normHeight scenarioProps.height
        + scenarioProps.paddingYaxis
        - normStroke scenarioProps.strokeWidthAxe / 2 - 30 - 10)) ∧
    ((∀ i ∈ idleState.hoveredIndex, i < (visibleSlice scenarioProps).length) →
      ((Bars scenarioProps idleState).tooltip = none ↔
        idleState.hoveredIndex = none ∨ idleState.hasMounted = false)) :=
  ⟨rfl, rfl, by with_unfolding_all decide, by with_unfolding_all decide,
    by norm_num, by with_unfolding_all decide,
    (c9_tooltip scenarioProps hoverState).2 1 dpB 20 100 rfl rfl
      (by with_unfolding_all decide) (by with_unfolding_all decide)
      (by norm_num) (by with_unfolding_all decide),
    (c9_tooltip scenarioProps idleState).1⟩

/-- C10: the windowed slice never has more than `numberShownColumns` entries
(when that count is a natural number), and the second positional filter by
`i < numberShownColumns` removes nothing: the doubly-filtered sequence equals
the windowed slice, for every data array, `initialValue` and
`numberShownColumns`. -/
theorem c10_second_filter_redundant :
    ∀ (data : List DataPoint) (initialValue numberShownColumns : ℚ),
      secondFilter (windowFilter data initialValue numberShownColumns)
          numberShownColumns
        = windowFilter data initialValue numberShownColumns ∧
      ∀ n : ℕ, numberShownColumns = (n : ℚ) →
        (windowFilter data initialValue numberShownColumns).length ≤ n := by
  intro data init nc
  refine ⟨secondFilter_windowFilter data init nc, ?_⟩
  intro n hn
  rw [hn]
  exact windowFilter_length_le_nat data init n

/-- C10, witness: the double filter collapses on a two-point dataset with
`numberShownColumns = 3`, and the slice length is at most `3`. -/
theorem c10_witness :
    secondFilter (windowFilter [dpA, dpB] (0 : ℚ) 3) 3
      = windowFilter [dpA, dpB] (0 : ℚ) 3 ∧
    ((3 : ℚ) = ((3 : ℕ) : ℚ)) ∧
    (windowFilter [dpA, dpB] (0 : ℚ) 3).length ≤ 3 :=
  ⟨(c10_second_filter_redundant [dpA, dpB] 0 3).1, by norm_num,
    (c10_second_filter_redundant [dpA, dpB] 0 3).2 3 (by norm_num)⟩

end ReactStyledCharts
